import Mathlib

/-!
Shallow embedding of the membership-reconciliation core of `consul/serf.go`:
the member classifier (`isConsulServer`), the remote topology directory
(`remoteJoin` / `remoteFailed`), the local view reconciler (`localJoin`),
the join-retry loop (`joinConsulServer`) and `memberStatus`.

Go strings are modelled through their character lists; the Go standard
library functions used by the source (`strings.HasPrefix`, `strings.SplitN`,
`strconv.Atoi`) are embedded below.  A Go runtime panic (index out of range)
is modelled as `Option.none`; log output is modelled by counting diagnostic
messages.
-/

set_option autoImplicit false

namespace ConsulSerf

/-- Embedding of `strings.HasPrefix p s` (argument order: pattern, string),
on character lists. -/
def beginsWith : List Char → List Char → Bool
  | [], _ => true
  | _ :: _, [] => false
  | p :: ps, c :: cs => p == c && beginsWith ps cs

/-- Splits a character list at the first occurrence of `sep`:
`some (before, after)`, or `none` when `sep` does not occur. -/
def breakAt (sep : Char) : List Char → Option (List Char × List Char)
  | [] => none
  | c :: cs =>
    if c = sep then some ([], cs)
    else
      match breakAt sep cs with
      | none => none
      | some (b, a) => some (c :: b, a)

/-- Embedding of `strings.SplitN s sep n` for a one-character separator:
at most `n` fields, the last field keeps the unsplit remainder. -/
def splitN (sep : Char) : Nat → List Char → List (List Char)
  | 0, _ => []
  | 1, s => [s]
  | n + 2, s =>
    match breakAt sep s with
    | none => [s]
    | some (b, a) => b :: splitN sep (n + 1) a

/-- All characters are decimal digits. -/
def allDigits : List Char → Bool
  | [] => true
  | c :: cs => c.isDigit && allDigits cs

/-- Base-10 value of a digit string. -/
def digitsVal (l : List Char) : Nat :=
  l.foldl (fun acc c => acc * 10 + (c.toNat - ('0').toNat)) 0

/-- Largest value of Go's 64-bit `int`. -/
def goMaxInt : Nat := 2 ^ 63 - 1

/-- Digit-string parsing as in `strconv.ParseUint(s, 10, 64)` before the
signed range check: nonempty, decimal digits only. -/
def parseUint (l : List Char) : Option Nat :=
  if l.isEmpty then none
  else if allDigits l then some (digitsVal l) else none

/-- Embedding of `strconv.Atoi`: optional sign, decimal digits, range check
against Go's 64-bit `int`; `none` models a non-nil `err`. -/
def atoi : List Char → Option Int
  | [] => none
  | c :: cs =>
    if c = '+' then
      (parseUint cs).bind fun n => if n ≤ goMaxInt then some (Int.ofNat n) else none
    else if c = '-' then
      (parseUint cs).bind fun n => if n ≤ goMaxInt + 1 then some (-(Int.ofNat n)) else none
    else
      (parseUint (c :: cs)).bind fun n => if n ≤ goMaxInt then some (Int.ofNat n) else none

/-- Status of a serf member (`serf.MemberStatus`). -/
inductive MemberStatus where
  | statusNone
  | statusAlive
  | statusLeaving
  | statusLeft
  | statusFailed
deriving DecidableEq

/-- A serf member record: name, network address (the IP, kept opaque),
advertised role tag, and current status. -/
structure Member where
  name : String
  addr : String
  role : String
  status : MemberStatus
deriving DecidableEq

/-- A TCP address (`net.TCPAddr`) built from a member's IP and a port.
Equality is structural, which coincides with the `String()` comparison the
source performs. -/
structure Addr where
  ip : String
  port : Int
deriving DecidableEq

/-- Embedding of `(*Server).isConsulServer`.  The result carries the Go
return triple `(bool, string, int)` together with the number of diagnostic
messages logged by the call; `none` models the runtime panic `index out of
range` raised by `parts[2]` when the split produced fewer than three
fields. -/
def isConsulServer (role : String) : Option ((Bool × String × Int) × Nat) :=
  if beginsWith (("consul:").data) role.data then
    match splitN ':' 3 role.data with
    | _ :: dcChars :: portChars :: _ =>
      match atoi portChars with
      | none => some ((false, "", 0), 1)
      | some port => some ((true, String.mk dcChars, port), 0)
    | _ => none
  else some ((false, "", 0), 0)

example : isConsulServer ("consul:dc1:8300") = some ((true, "dc1", 8300), 0) := by decide
example : isConsulServer ("consul:dc1:-1") = some ((true, "dc1", -1), 0) := by decide
example : isConsulServer ("consul:dc1:x") = some ((false, "", 0), 1) := by decide
example : isConsulServer ("consul:dc1") = none := by decide
example : isConsulServer ("consul:") = none := by decide
example : isConsulServer ("web") = some ((false, "", 0), 0) := by decide

/-- The remote topology directory `s.remoteConsuls`: a map from datacenter
to the list of known server addresses, modelled as an association list. -/
abbrev Directory := List (String × List Addr)

/-- Reading `s.remoteConsuls[dc]`: the Go map read, which yields the nil
slice for an absent key. -/
def dirLookup : Directory → String → List Addr
  | [], _ => []
  | (k1, v1) :: rest, k => if k1 = k then v1 else dirLookup rest k

/-- Writing `s.remoteConsuls[dc] = v`: the Go map assignment. -/
def dirInsert : Directory → String → List Addr → Directory
  | [], k, v => [(k, v)]
  | (k1, v1) :: rest, k, v =>
    if k1 = k then (k, v) :: rest else (k1, v1) :: dirInsert rest k v

/-- `delete(s.remoteConsuls, dc)`: the Go map key deletion. -/
def dirErase : Directory → String → Directory
  | [], _ => []
  | (k1, v1) :: rest, k => if k1 = k then rest else (k1, v1) :: dirErase rest k

/-- The membership scan `for _, e := range existing { if e.String() ==
addr.String() { ... } }` used by `remoteJoin`. -/
def addrIn (a : Addr) : List Addr → Bool
  | [] => false
  | x :: xs => if x = a then true else addrIn a xs

/-- Index of the first structurally-equal address, mirroring the scan loop
of `remoteFailed`. -/
def findPos (a : Addr) : List Addr → Option Nat
  | [] => none
  | x :: xs => if x = a then some 0 else (findPos a xs).map (· + 1)

/-- The removal step of `remoteFailed`: find the first matching entry,
overwrite it with the last element, and truncate the slice by one. -/
def removeAddr (l : List Addr) (a : Addr) : List Addr :=
  match findPos a l with
  | none => l
  | some i => ((l.set i (l.getLastD a)).dropLast)

/-- Per-member body of `(*Server).remoteJoin`: classify, skip
non-participants, and add the candidate address to its datacenter's list
when it is not already present.  `none` models the classifier panic. -/
def remoteJoinMember (d : Directory) (m : Member) : Option Directory :=
  match isConsulServer m.role with
  | none => none
  | some ((false, _, _), _) => some d
  | some ((true, dc, port), _) =>
    let addr : Addr := ⟨m.addr, port⟩
    let existing := dirLookup d dc
    if addrIn addr existing then some d
    else some (dirInsert d dc (existing ++ [addr]))

/-- Per-member body of `(*Server).remoteFailed`: classify, skip
non-participants, remove the candidate address by swap-with-last, and drop
the datacenter key when its list becomes empty. -/
def remoteFailedMember (d : Directory) (m : Member) : Option Directory :=
  match isConsulServer m.role with
  | none => none
  | some ((false, _, _), _) => some d
  | some ((true, dc, port), _) =>
    let addr : Addr := ⟨m.addr, port⟩
    let remaining := removeAddr (dirLookup d dc) addr
    if remaining.isEmpty then some (dirErase d dc)
    else some (dirInsert d dc remaining)

/-- A wide-area serf event as dispatched by `wanEventHandler`. -/
inductive WanEvent where
  | join (ms : List Member)
  | leave (ms : List Member)
  | failed (ms : List Member)
  | user
  | other

/-- Dispatch of one wide-area event by `wanEventHandler`: joins go to
`remoteJoin`, leave falls through to `remoteFailed`, fail goes to
`remoteFailed`, user and unrecognised events are ignored. -/
def handleWanEvent (d : Directory) : WanEvent → Option Directory
  | WanEvent.join ms => ms.foldlM remoteJoinMember d
  | WanEvent.leave ms => ms.foldlM remoteFailedMember d
  | WanEvent.failed ms => ms.foldlM remoteFailedMember d
  | WanEvent.user => some d
  | WanEvent.other => some d

/-- Processing a sequence of wide-area events starting from the empty
directory created at server startup. -/
def processWan (evs : List WanEvent) : Option Directory :=
  evs.foldlM handleWanEvent []

/-- Per-member body of `(*Server).localJoin`, accumulating the launched
join-retry tasks (member and rpc port) and the number of diagnostics:
non-participants are skipped, participants from a foreign datacenter are
diagnosed and skipped, and every other participant gets one task. -/
def localJoinStep (cfgDC : String) (acc : List (Member × Int) × Nat)
    (m : Member) : Option (List (Member × Int) × Nat) :=
  match isConsulServer m.role with
  | none => none
  | some ((ok, dc, port), logs) =>
    if ok = false then some (acc.1, acc.2 + logs)
    else if dc ≠ cfgDC then some (acc.1, acc.2 + logs + 1)
    else some (acc.1 ++ [(m, port)], acc.2 + logs)

/-- `(*Server).localJoin` over the member list of one local join event. -/
def localJoin (cfgDC : String) (ms : List Member) :
    Option (List (Member × Int) × Nat) :=
  ms.foldlM (localJoinStep cfgDC) ([], 0)

/-- Embedding of `memberStatus`: scan for the first member with the given
name and return its status, `StatusNone` when no member matches. -/
def memberStatus : List Member → String → MemberStatus
  | [], _ => MemberStatus.statusNone
  | m :: ms, name => if m.name = name then m.status else memberStatus ms name

/-- One externally observable request issued to the raft engine by the
join-retry loop. -/
inductive RaftAction where
  | getPeers
  | addPeer (a : Addr)
deriving DecidableEq

/-- The environment a running join-retry loop observes on its i-th
iteration: the raft peer-list read (`none` models a read error), the local
serf membership snapshot, whether the add-peer request succeeds, and
whether the shutdown channel is closed at the wait step. -/
structure JoinEnv where
  peersAt : Nat → Option (List Addr)
  lanMembers : Nat → List Member
  addPeerOk : Nat → Bool
  shutdown : Nat → Bool

/-- The `CHECK`/`WAIT` loop of `joinConsulServer`, with explicit fuel
(the source loop is unbounded).  Returns the raft requests issued, and
`true` when the loop terminated (rather than running out of fuel). -/
def joinLoopAux (env : JoinEnv) (name : String) (addr : Addr) :
    Nat → Nat → List RaftAction × Bool
  | 0, _ => ([], false)
  | fuel + 1, i =>
    match env.peersAt i with
    | none =>
      if env.shutdown i then ([RaftAction.getPeers], true)
      else
        let r := joinLoopAux env name addr fuel (i + 1)
        (RaftAction.getPeers :: r.1, r.2)
    | some peers =>
      if addrIn addr peers then ([RaftAction.getPeers], true)
      else if memberStatus (env.lanMembers i) name ≠ MemberStatus.statusAlive then
        ([RaftAction.getPeers], true)
      else if env.addPeerOk i then
        ([RaftAction.getPeers, RaftAction.addPeer addr], true)
      else if env.shutdown i then
        ([RaftAction.getPeers, RaftAction.addPeer addr], true)
      else
        let r := joinLoopAux env name addr fuel (i + 1)
        (RaftAction.getPeers :: RaftAction.addPeer addr :: r.1, r.2)

/-- Embedding of `(*Server).joinConsulServer`: exit immediately when the
candidate is this node itself, otherwise run the retry loop. -/
def joinConsulServer (nodeName : String) (env : JoinEnv) (m : Member)
    (port : Int) (fuel : Nat) : List RaftAction × Bool :=
  if m.name = nodeName then ([], true)
  else joinLoopAux env m.name ⟨m.addr, port⟩ fuel 0

/-! ### Helper lemmas -/

lemma participant_no_diag (role : String) (dc : String) (port : Int) (k : Nat)
    (h : isConsulServer role = some ((true, dc, port), k)) : k = 0 := by
  unfold isConsulServer at h
  split at h
  · split at h
    · split at h
      · simp at h
      · simp at h
        omega
    · simp at h
  · simp at h

lemma beginsWith_append (p r : List Char) : beginsWith p (p ++ r) = true := by
  induction p with
  | nil => rfl
  | cons c cs ih => simp [beginsWith, ih]

lemma breakAt_append (sep : Char) (l r : List Char) (h : ∀ c ∈ l, c ≠ sep) :
    breakAt sep (l ++ sep :: r) = some (l, r) := by
  induction l with
  | nil => simp [breakAt]
  | cons c cs ih =>
    have hc : c ≠ sep := h c (by simp)
    have ih1 := ih fun x hx => h x (by simp [hx])
    simp [breakAt, hc, ih1]

lemma splitN_three (l1 l2 r : List Char) (h1 : ∀ c ∈ l1, c ≠ ':')
    (h2 : ∀ c ∈ l2, c ≠ ':') :
    splitN ':' 3 (l1 ++ ':' :: (l2 ++ ':' :: r)) = [l1, l2, r] := by
  have b1 := breakAt_append ':' l1 (l2 ++ ':' :: r) h1
  have b2 := breakAt_append ':' l2 r h2
  simp [splitN, b1, b2]

lemma data_marker_split (site portStr : String) :
    ("consul:" ++ site ++ ":" ++ portStr).data =
      ("consul").data ++ ':' :: (site.data ++ ':' :: portStr.data) := by
  simp [String.data_append]

lemma atoi_digits (c : Char) (cs : List Char)
    (hdig : allDigits (c :: cs) = true)
    (hrange : digitsVal (c :: cs) ≤ goMaxInt) :
    atoi (c :: cs) = some (Int.ofNat (digitsVal (c :: cs))) := by
  have hc : c.isDigit = true := by
    have := hdig
    simp only [allDigits, Bool.and_eq_true] at this
    exact this.1
  have hplus : c ≠ '+' := by
    intro e
    rw [e] at hc
    exact absurd hc (by decide)
  have hminus : c ≠ '-' := by
    intro e
    rw [e] at hc
    exact absurd hc (by decide)
  simp [atoi, hplus, hminus, parseUint, hdig, hrange]

lemma parseUint_digits (l : List Char) (hne : l ≠ [])
    (hdig : allDigits l = true) : parseUint l = some (digitsVal l) := by
  simp [parseUint, List.isEmpty_iff, hne, hdig]

lemma classify_split (site portStr : String) (v : Int)
    (hsite : ∀ c ∈ site.data, c ≠ ':')
    (hatoi : atoi portStr.data = some v) :
    isConsulServer ("consul:" ++ site ++ ":" ++ portStr) =
      some ((true, site, v), 0) := by
  have hdata := data_marker_split site portStr
  have hpre : beginsWith (("consul:").data)
      ("consul:" ++ site ++ ":" ++ portStr).data = true := by
    rw [hdata,
      show ("consul").data ++ ':' :: (site.data ++ ':' :: portStr.data)
        = ("consul:").data ++ (site.data ++ ':' :: portStr.data) by
          rw [show ("consul:").data = ("consul").data ++ [':'] from rfl,
            List.append_assoc, List.singleton_append]]
    exact beginsWith_append _ _
  have hsplit : splitN ':' 3 ("consul:" ++ site ++ ":" ++ portStr).data
      = [("consul").data, site.data, portStr.data] := by
    rw [hdata]
    exact splitN_three _ _ _ (by decide) hsite
  unfold isConsulServer
  rw [if_pos hpre, hsplit]
  simp only [hatoi]

lemma memberStatus_not_found (ms : List Member) (name : String)
    (h : ∀ mm ∈ ms, mm.name ≠ name) :
    memberStatus ms name = MemberStatus.statusNone := by
  induction ms with
  | nil => rfl
  | cons m ms ih =>
    have h1 : m.name ≠ name := h m (by simp)
    simp [memberStatus, h1, ih fun x hx => h x (by simp [hx])]

lemma addrIn_iff (a : Addr) (l : List Addr) : addrIn a l = true ↔ a ∈ l := by
  induction l with
  | nil => simp [addrIn]
  | cons x xs ih =>
    by_cases h : x = a
    · simp [addrIn, h]
    · simp [addrIn, h, ih, Ne.symm h]

lemma dirLookup_dirInsert (d : Directory) (k : String) (v : List Addr) :
    dirLookup (dirInsert d k v) k = v := by
  induction d with
  | nil => simp [dirInsert, dirLookup]
  | cons p rest ih =>
    obtain ⟨k1, v1⟩ := p
    by_cases h : k1 = k
    · simp [dirInsert, dirLookup, h]
    · simp [dirInsert, dirLookup, h, ih]

/-- Invariant of the remote topology directory: datacenter keys are
unique, and every stored address list is non-empty and duplicate-free. -/
def DirInv (d : Directory) : Prop :=
  (d.map Prod.fst).Nodup ∧ ∀ p ∈ d, p.2 ≠ [] ∧ p.2.Nodup

lemma mem_keys_dirInsert (d : Directory) (k : String) (v : List Addr)
    (x : String) (hx : x ∈ (dirInsert d k v).map Prod.fst) :
    x ∈ d.map Prod.fst ∨ x = k := by
  induction d with
  | nil =>
    simp [dirInsert] at hx
    exact Or.inr hx
  | cons p rest ih =>
    obtain ⟨k1, v1⟩ := p
    by_cases h : k1 = k
    · simp [dirInsert, h] at hx
      rcases hx with hx | hx
      · exact Or.inr hx
      · exact Or.inl (by simp [hx])
    · simp [dirInsert, h] at hx
      rcases hx with hx | hx
      · exact Or.inl (by simp [hx])
      · rcases ih (by simpa using hx) with h2 | h2
        · exact Or.inl (by simp; right; simpa using h2)
        · exact Or.inr h2

lemma keys_dirInsert_nodup (d : Directory) (k : String) (v : List Addr)
    (hn : (d.map Prod.fst).Nodup) :
    ((dirInsert d k v).map Prod.fst).Nodup := by
  induction d with
  | nil => simp [dirInsert]
  | cons p rest ih =>
    obtain ⟨k1, v1⟩ := p
    simp only [List.map_cons, List.nodup_cons] at hn
    by_cases h : k1 = k
    · subst h
      simpa [dirInsert] using hn
    · simp only [dirInsert, h, if_false, List.map_cons, List.nodup_cons]
      refine ⟨?_, ih hn.2⟩
      intro hmem
      rcases mem_keys_dirInsert rest k v k1 hmem with h2 | h2
      · exact hn.1 h2
      · exact h h2

lemma mem_dirInsert (d : Directory) (k : String) (v : List Addr)
    (p : String × List Addr) (hp : p ∈ dirInsert d k v) :
    p = (k, v) ∨ p ∈ d := by
  induction d with
  | nil =>
    simp [dirInsert] at hp
    exact Or.inl hp
  | cons q rest ih =>
    obtain ⟨k1, v1⟩ := q
    by_cases h : k1 = k
    · simp [dirInsert, h] at hp
      rcases hp with hp | hp
      · exact Or.inl (by simp [hp])
      · exact Or.inr (by simp [hp])
    · simp only [dirInsert, h, if_false, List.mem_cons] at hp
      rcases hp with hp | hp
      · exact Or.inr (by simp [hp])
      · rcases ih hp with h2 | h2
        · exact Or.inl h2
        · exact Or.inr (by simp [h2])

lemma dirErase_sublist (d : Directory) (k : String) :
    (dirErase d k).Sublist d := by
  induction d with
  | nil => simp [dirErase]
  | cons p rest ih =>
    obtain ⟨k1, v1⟩ := p
    by_cases h : k1 = k
    · rw [dirErase, if_pos h]
      exact List.sublist_cons_self _ _
    · rw [dirErase, if_neg h]
      exact ih.cons₂ _

lemma mem_dirErase_ne (d : Directory) (k : String)
    (hn : (d.map Prod.fst).Nodup) :
    ∀ p ∈ dirErase d k, p.1 ≠ k := by
  induction d with
  | nil => simp [dirErase]
  | cons q rest ih =>
    obtain ⟨k1, v1⟩ := q
    simp only [List.map_cons, List.nodup_cons] at hn
    intro p hp
    by_cases h : k1 = k
    · subst h
      rw [dirErase, if_pos rfl] at hp
      intro hpk
      exact hn.1 (hpk ▸ List.mem_map_of_mem Prod.fst hp)
    · rw [dirErase, if_neg h] at hp
      rcases List.mem_cons.1 hp with hp1 | hp1
      · rw [hp1]
        exact h
      · exact ih hn.2 p hp1

lemma dirLookup_cases (d : Directory) (k : String) :
    dirLookup d k = [] ∨ (k, dirLookup d k) ∈ d := by
  induction d with
  | nil => exact Or.inl rfl
  | cons p rest ih =>
    obtain ⟨k1, v1⟩ := p
    by_cases h : k1 = k
    · subst h
      simp [dirLookup]
    · rw [dirLookup, if_neg h]
      rcases ih with h2 | h2
      · exact Or.inl h2
      · exact Or.inr (by simp [h2])

lemma dirLookup_nodup (d : Directory) (k : String) (hinv : DirInv d) :
    (dirLookup d k).Nodup := by
  rcases dirLookup_cases d k with h | h
  · simp [h]
  · exact (hinv.2 _ h).2

lemma findPos_decomp (a : Addr) (l : List Addr) (i : Nat)
    (h : findPos a l = some i) :
    ∃ l1 l2, l = l1 ++ a :: l2 ∧ l1.length = i := by
  induction l generalizing i with
  | nil => simp [findPos] at h
  | cons x xs ih =>
    by_cases hx : x = a
    · rw [findPos, if_pos hx] at h
      obtain rfl : (0 : Nat) = i := by simpa using h
      exact ⟨[], xs, by simp [hx], rfl⟩
    · rw [findPos, if_neg hx] at h
      obtain ⟨j, hj, rfl⟩ := Option.map_eq_some'.1 h
      obtain ⟨l1, l2, rfl, hlen⟩ := ih j hj
      exact ⟨x :: l1, l2, by simp, by simp [hlen]⟩

lemma set_len_append (l1 : List Addr) (x v : Addr) (l2 : List Addr) :
    (l1 ++ x :: l2).set l1.length v = l1 ++ v :: l2 := by
  induction l1 with
  | nil => rfl
  | cons c cs ih => simp [List.set, ih]

lemma removeAddr_eq_of_none (l : List Addr) (a : Addr)
    (h : findPos a l = none) : removeAddr l a = l := by
  unfold removeAddr
  rw [h]

lemma removeAddr_eq_of_some (l : List Addr) (a : Addr) (i : Nat)
    (h : findPos a l = some i) :
    removeAddr l a = ((l.set i (l.getLastD a)).dropLast) := by
  unfold removeAddr
  rw [h]

lemma removeAddr_nodup (l : List Addr) (a : Addr) (h : l.Nodup) :
    (removeAddr l a).Nodup := by
  cases hf : findPos a l with
  | none =>
    rw [removeAddr_eq_of_none l a hf]
    exact h
  | some i =>
    rw [removeAddr_eq_of_some l a i hf]
    obtain ⟨l1, l2, rfl, hlen⟩ := findPos_decomp a l i hf
    subst hlen
    rcases List.eq_nil_or_concat' l2 with rfl | ⟨l3, z, rfl⟩
    · rw [show l1 ++ a :: ([] : List Addr) = l1 ++ [a] from rfl,
        List.getLastD_concat, set_len_append,
        show l1 ++ a :: ([] : List Addr) = l1 ++ [a] from rfl,
        List.dropLast_concat]
      exact h.of_append_left
    · have hg : (l1 ++ a :: (l3 ++ [z])).getLastD a = z := by
        rw [show l1 ++ a :: (l3 ++ [z]) = (l1 ++ a :: l3) ++ [z] by simp]
        exact List.getLastD_concat _ _ _
      rw [hg, set_len_append,
        show l1 ++ z :: (l3 ++ [z]) = (l1 ++ z :: l3) ++ [z] by simp,
        List.dropLast_concat]
      have h1 : (a :: (l1 ++ (l3 ++ [z]))).Nodup := List.nodup_middle.1 h
      have h2 : (l1 ++ (l3 ++ [z])).Nodup := (List.nodup_cons.1 h1).2
      rw [show l1 ++ (l3 ++ [z]) = (l1 ++ l3) ++ [z] by simp] at h2
      obtain ⟨hn, -, hdisj⟩ := List.nodup_append.1 h2
      have hz : z ∉ l1 ++ l3 := fun hmem => hdisj hmem (by simp)
      exact List.nodup_middle.2 (List.nodup_cons.2 ⟨hz, hn⟩)

lemma remoteJoinMember_inv (d : Directory) (m : Member) (d1 : Directory)
    (hinv : DirInv d) (h : remoteJoinMember d m = some d1) : DirInv d1 := by
  unfold remoteJoinMember at h
  cases hcl : isConsulServer m.role with
  | none =>
    rw [hcl] at h
    simp at h
  | some x =>
    obtain ⟨⟨b, dc, port⟩, logs⟩ := x
    rw [hcl] at h
    cases b with
    | false =>
      obtain rfl : d = d1 := by simpa using h
      exact hinv
    | true =>
      by_cases hmem : addrIn ⟨m.addr, port⟩ (dirLookup d dc) = true
      · obtain rfl : d = d1 := by simpa [hmem] using h
        exact hinv
      · have hd1 : d1 = dirInsert d dc (dirLookup d dc ++ [⟨m.addr, port⟩]) := by
          simp only [hmem, Bool.false_eq_true, if_false, Option.some.injEq] at h
          exact h.symm
        subst hd1
        have hnotin : (⟨m.addr, port⟩ : Addr) ∉ dirLookup d dc := by
          intro hcontra
          rw [(addrIn_iff _ _).2 hcontra] at hmem
          exact hmem rfl
        constructor
        · exact keys_dirInsert_nodup d dc _ hinv.1
        · intro p hp
          rcases mem_dirInsert d dc _ p hp with rfl | hp2
          · refine ⟨by simp, ?_⟩
            rw [List.nodup_append]
            refine ⟨dirLookup_nodup d dc hinv, by simp, ?_⟩
            intro x hx hx2
            simp only [List.mem_singleton] at hx2
            subst hx2
            exact hnotin hx
          · exact hinv.2 p hp2

lemma remoteFailedMember_inv (d : Directory) (m : Member) (d1 : Directory)
    (hinv : DirInv d) (h : remoteFailedMember d m = some d1) : DirInv d1 := by
  unfold remoteFailedMember at h
  cases hcl : isConsulServer m.role with
  | none =>
    rw [hcl] at h
    simp at h
  | some x =>
    obtain ⟨⟨b, dc, port⟩, logs⟩ := x
    rw [hcl] at h
    cases b with
    | false =>
      obtain rfl : d = d1 := by simpa using h
      exact hinv
    | true =>
      by_cases hemp : (removeAddr (dirLookup d dc) ⟨m.addr, port⟩).isEmpty = true
      · have hd1 : d1 = dirErase d dc := by
          simp only [hemp, if_true, Option.some.injEq] at h
          exact h.symm
        subst hd1
        constructor
        · exact ((dirErase_sublist d dc).map Prod.fst).nodup hinv.1
        · intro p hp
          exact hinv.2 p ((dirErase_sublist d dc).subset hp)
      · have hd1 : d1 = dirInsert d dc (removeAddr (dirLookup d dc) ⟨m.addr, port⟩) := by
          simp only [hemp, Bool.false_eq_true, if_false, Option.some.injEq] at h
          exact h.symm
        subst hd1
        constructor
        · exact keys_dirInsert_nodup d dc _ hinv.1
        · intro p hp
          rcases mem_dirInsert d dc _ p hp with rfl | hp2
          · refine ⟨?_, removeAddr_nodup _ _ (dirLookup_nodup d dc hinv)⟩
            intro hnil
            have hnil2 : removeAddr (dirLookup d dc) ⟨m.addr, port⟩ = [] := hnil
            rw [hnil2] at hemp
            exact hemp rfl
          · exact hinv.2 p hp2

lemma foldlM_dir_inv {α : Type} (f : Directory → α → Option Directory)
    (hf : ∀ d x d1, DirInv d → f d x = some d1 → DirInv d1) :
    ∀ (l : List α) (d d1 : Directory), DirInv d →
      List.foldlM f d l = some d1 → DirInv d1 := by
  intro l
  induction l with
  | nil =>
    intro d d1 hinv h
    obtain rfl : d = d1 := by simpa [List.foldlM] using h
    exact hinv
  | cons x xs ih =>
    intro d d1 hinv h
    simp only [List.foldlM] at h
    cases hx : f d x with
    | none =>
      rw [hx] at h
      simp at h
    | some d2 =>
      rw [hx] at h
      exact ih d2 d1 (hf d x d2 hinv hx) h

lemma handleWanEvent_inv (d : Directory) (ev : WanEvent) (d1 : Directory)
    (hinv : DirInv d) (h : handleWanEvent d ev = some d1) : DirInv d1 := by
  cases ev with
  | join ms => exact foldlM_dir_inv _ remoteJoinMember_inv ms d d1 hinv h
  | leave ms => exact foldlM_dir_inv _ remoteFailedMember_inv ms d d1 hinv h
  | failed ms => exact foldlM_dir_inv _ remoteFailedMember_inv ms d d1 hinv h
  | user =>
    obtain rfl : d = d1 := by simpa [handleWanEvent] using h
    exact hinv
  | other =>
    obtain rfl : d = d1 := by simpa [handleWanEvent] using h
    exact hinv

lemma processWan_inv (evs : List WanEvent) (d : Directory)
    (h : processWan evs = some d) : DirInv d :=
  foldlM_dir_inv _ handleWanEvent_inv evs [] d ⟨by simp, by simp⟩ h

/-! ### Claim theorems -/

/-- Claim C1 (code bug): the spec demands that malformed role tags with a
missing site or port field classify as non-participant without a fatal
failure, but on the roles `consul:` and `consul:dc1` the source evaluates
`parts[2]` of a two-element slice and panics (modelled by `none`),
aborting classification. -/
theorem classifier_panics_on_missing_fields :
    isConsulServer ("consul:") = none ∧ isConsulServer ("consul:dc1") = none := by
  decide

/-- Claim C4: a role tag without the participant marker yields
`(false, "", 0)` with no diagnostic, and a role tag that splits into a
marker field, a site field and a non-numeric port field yields
`(false, "", 0)` with exactly one diagnostic. -/
theorem classifier_rejects_nonparticipant (role : String) :
    (beginsWith (("consul:").data) role.data = false →
      isConsulServer role = some ((false, "", 0), 0)) ∧
    (∀ p0 p1 p2 rest, beginsWith (("consul:").data) role.data = true →
      splitN ':' 3 role.data = p0 :: p1 :: p2 :: rest →
      atoi p2 = none →
      isConsulServer role = some ((false, "", 0), 1)) := by
  constructor
  · intro h
    simp [isConsulServer, h]
  · intro p0 p1 p2 rest hpre hsplit hatoi
    simp [isConsulServer, hpre, hsplit, hatoi]

/-- Witness for C4 at the concrete tags `web` (no marker, no diagnostic)
and `consul:dc1:x` (non-numeric port, one diagnostic). -/
theorem classifier_rejects_nonparticipant_witness :
    isConsulServer ("web") = some ((false, "", 0), 0) ∧
    isConsulServer ("consul:dc1:x") = some ((false, "", 0), 1) :=
  ⟨(classifier_rejects_nonparticipant ("web")).1 (by decide),
   (classifier_rejects_nonparticipant ("consul:dc1:x")).2
     (("consul").data) (("dc1").data) (("x").data) [] (by decide) (by decide)
     (by decide)⟩

/-- Claim C3: a role tag `consul:S:P` whose site field contains no
separator and whose port field is a nonempty decimal digit string in the
range of Go's `int` classifies as a participant of site `S` with port
value `P`. -/
theorem classifier_accepts_wellformed (site portStr : String)
    (hsite : ∀ c ∈ site.data, c ≠ ':')
    (hne : portStr.data ≠ [])
    (hdig : allDigits portStr.data = true)
    (hrange : digitsVal portStr.data ≤ goMaxInt) :
    isConsulServer ("consul:" ++ site ++ ":" ++ portStr) =
      some ((true, site, Int.ofNat (digitsVal portStr.data)), 0) := by
  obtain ⟨c, cs, hp⟩ : ∃ c cs, portStr.data = c :: cs := by
    cases h : portStr.data with
    | nil => exact absurd h hne
    | cons c cs => exact ⟨c, cs, rfl⟩
  have hatoi : atoi portStr.data = some (Int.ofNat (digitsVal portStr.data)) := by
    rw [hp]
    exact atoi_digits c cs (hp ▸ hdig) (hp ▸ hrange)
  exact classify_split site portStr _ hsite hatoi

/-- Witness for C3 at the concrete tag `consul:dc1:8300`. -/
theorem classifier_accepts_wellformed_witness :
    isConsulServer ("consul:" ++ "dc1" ++ ":" ++ "8300") =
      some ((true, "dc1", Int.ofNat (digitsVal (("8300").data))), 0) :=
  classifier_accepts_wellformed ("dc1") ("8300") (by decide) (by decide)
    (by decide) (by decide)

/-- Claim C10: the classifier does no range or sign validation beyond
`strconv.Atoi`: a signed port field such as `-1` still classifies as a
participant, with the negative port value passed through. -/
theorem classifier_accepts_negative_port (site : String) (ds : List Char)
    (hsite : ∀ c ∈ site.data, c ≠ ':')
    (hne : ds ≠ [])
    (hdig : allDigits ds = true)
    (hrange : digitsVal ds ≤ goMaxInt + 1) :
    isConsulServer ("consul:" ++ site ++ ":" ++ String.mk ('-' :: ds)) =
      some ((true, site, -(Int.ofNat (digitsVal ds))), 0) := by
  have hatoi : atoi (String.mk ('-' :: ds)).data =
      some (-(Int.ofNat (digitsVal ds))) := by
    show atoi ('-' :: ds) = _
    rw [show atoi ('-' :: ds) =
        (parseUint ds).bind
          (fun n => if n ≤ goMaxInt + 1 then some (-(Int.ofNat n)) else none)
      from by simp [atoi]]
    rw [parseUint_digits ds hne hdig]
    simp [hrange]
  exact classify_split site (String.mk ('-' :: ds)) _ hsite hatoi

/-- Witness for C10 at the concrete tag `consul:dc1:-1`. -/
theorem classifier_accepts_negative_port_witness :
    isConsulServer ("consul:" ++ "dc1" ++ ":" ++ String.mk ('-' :: ['1'])) =
      some ((true, "dc1", -(Int.ofNat (digitsVal ['1']))), 0) :=
  classifier_accepts_negative_port ("dc1") ['1'] (by decide) (by decide)
    (by decide) (by decide)

/-- Claim C6: when the candidate member is this node itself (matched by
node name), `joinConsulServer` returns at once, issuing no peer-list read
and no add-peer request. -/
theorem join_self_noop (nodeName : String) (env : JoinEnv) (m : Member)
    (port : Int) (fuel : Nat) (h : m.name = nodeName) :
    joinConsulServer nodeName env m port fuel = ([], true) := by
  simp [joinConsulServer, h]

/-- Witness for C6: a concrete self-candidate terminates with no raft
requests. -/
theorem join_self_noop_witness :
    joinConsulServer ("node1")
      ⟨fun _ => some [], fun _ => [], fun _ => true, fun _ => false⟩
      ⟨"node1", "1.2.3.4", "consul:dc1:8300", MemberStatus.statusAlive⟩
      8300 5 = ([], true) :=
  join_self_noop ("node1") _ _ 8300 5 rfl

/-- Claim C7: when the candidate is not this node and its address is
already present in the peer list read on the first iteration, the loop
terminates successfully after that single read, with no add-peer
request. -/
theorem join_already_peer_noop (nodeName : String) (env : JoinEnv)
    (m : Member) (port : Int) (fuel : Nat) (ps : List Addr)
    (hself : m.name ≠ nodeName)
    (hpeers : env.peersAt 0 = some ps)
    (hmem : addrIn ⟨m.addr, port⟩ ps = true) :
    joinConsulServer nodeName env m port (fuel + 1) =
      ([RaftAction.getPeers], true) := by
  simp [joinConsulServer, hself, joinLoopAux, hpeers, hmem]

/-- Witness for C7: a concrete candidate whose address is already in the
first peer snapshot terminates after one read. -/
theorem join_already_peer_noop_witness :
    joinConsulServer ("node1")
      ⟨fun _ => some [⟨"1.2.3.4", 8300⟩], fun _ => [], fun _ => true,
        fun _ => false⟩
      ⟨"node2", "1.2.3.4", "consul:dc1:8300", MemberStatus.statusAlive⟩
      8300 4 = ([RaftAction.getPeers], true) :=
  join_already_peer_noop ("node1") _ _ 8300 3 [⟨"1.2.3.4", 8300⟩]
    (by decide) rfl (by decide)

/-- Claim C8: a local join member that classifies as a participant of a
foreign datacenter is diagnosed once and launches no join-retry task (so
no add-peer request can arise from it), while classification itself still
reports it as a participant. -/
theorem local_join_wrong_site (cfgDC : String) (m : Member) (dc : String)
    (port : Int) (k : Nat)
    (hclass : isConsulServer m.role = some ((true, dc, port), k))
    (hdc : dc ≠ cfgDC) :
    localJoin cfgDC [m] = some ([], 1) ∧
    isConsulServer m.role = some ((true, dc, port), 0) := by
  have hk : k = 0 := participant_no_diag _ _ _ _ hclass
  subst hk
  refine ⟨?_, hclass⟩
  simp [localJoin, List.foldlM, localJoinStep, hclass, hdc]

/-- Witness for C8: a member tagged `consul:dc2:8300` joining a `dc1`
node is diagnosed once and spawns nothing. -/
theorem local_join_wrong_site_witness :
    localJoin ("dc1")
      [⟨"node2", "1.2.3.4", "consul:dc2:8300", MemberStatus.statusAlive⟩] =
      some ([], 1) ∧
    isConsulServer ("consul:dc2:8300") = some ((true, "dc2", 8300), 0) :=
  local_join_wrong_site ("dc1")
    ⟨"node2", "1.2.3.4", "consul:dc2:8300", MemberStatus.statusAlive⟩
    ("dc2") 8300 0 (by decide) (by decide)

/-- Claim C2: after any sequence of wide-area join and fail/leave events
processed from the empty directory, every site key present holds a
non-empty duplicate-free address list; and when a further fail event
removes the last address of a site, that site's key is absent from the
resulting directory. -/
theorem remote_directory_invariant (evs : List WanEvent) (d : Directory)
    (h : processWan evs = some d) :
    (∀ dc l, (dc, l) ∈ d → l ≠ [] ∧ l.Nodup) ∧
    (∀ (m : Member) (d1 : Directory) (dc : String) (port : Int) (k : Nat),
      isConsulServer m.role = some ((true, dc, port), k) →
      remoteFailedMember d m = some d1 →
      removeAddr (dirLookup d dc) ⟨m.addr, port⟩ = [] →
      ∀ p ∈ d1, p.1 ≠ dc) := by
  have hinv : DirInv d := processWan_inv evs d h
  constructor
  · intro dc l hmem
    exact hinv.2 (dc, l) hmem
  · intro m d1 dc port k hcl hfail hempty
    unfold remoteFailedMember at hfail
    rw [hcl] at hfail
    simp only [hempty, List.isEmpty_nil, if_true, Option.some.injEq] at hfail
    subst hfail
    exact mem_dirErase_ne d dc hinv.1

/-- Witness for C2: one join followed by the matching fail hypothesis;
the directory after the join satisfies the invariant. -/
theorem remote_directory_invariant_witness :
    (∀ dc l,
      (dc, l) ∈ ([("dc1", [(⟨"1.1.1.1", 8300⟩ : Addr)])] : Directory) →
      l ≠ [] ∧ l.Nodup) ∧
    (∀ (m : Member) (d1 : Directory) (dc : String) (port : Int) (k : Nat),
      isConsulServer m.role = some ((true, dc, port), k) →
      remoteFailedMember [("dc1", [(⟨"1.1.1.1", 8300⟩ : Addr)])] m =
        some d1 →
      removeAddr (dirLookup [("dc1", [(⟨"1.1.1.1", 8300⟩ : Addr)])] dc)
        ⟨m.addr, port⟩ = [] →
      ∀ p ∈ d1, p.1 ≠ dc) :=
  remote_directory_invariant
    [WanEvent.join
      [⟨"node1", "1.1.1.1", "consul:dc1:8300", MemberStatus.statusAlive⟩]]
    [("dc1", [(⟨"1.1.1.1", 8300⟩ : Addr)])] (by decide)

/-- Claim C9: `memberStatus` returns the status of the first member whose
name matches, and `StatusNone` when none does; consequently the join-retry
loop's liveness re-check on a candidate absent from the local membership
snapshot terminates the loop after the peer-list read, with no add-peer
request. -/
theorem member_status_first_match :
    (∀ (ms : List Member) (name : String),
      memberStatus ms name =
        (match ms.find? (fun mm => mm.name == name) with
         | some mm => mm.status
         | none => MemberStatus.statusNone)) ∧
    (∀ (nodeName : String) (env : JoinEnv) (m : Member) (port : Int)
        (fuel : Nat) (ps : List Addr),
      m.name ≠ nodeName →
      env.peersAt 0 = some ps →
      addrIn ⟨m.addr, port⟩ ps = false →
      (∀ mm ∈ env.lanMembers 0, mm.name ≠ m.name) →
      joinConsulServer nodeName env m port (fuel + 1) =
        ([RaftAction.getPeers], true)) := by
  constructor
  · intro ms name
    induction ms with
    | nil => rfl
    | cons m ms ih =>
      by_cases h : m.name = name
      · rw [List.find?_cons_of_pos _ (by simp [h])]
        simp [memberStatus, h]
      · rw [List.find?_cons_of_neg _ (by simp [h])]
        simp [memberStatus, h, ih]
  · intro nodeName env m port fuel ps hself hpeers hmem hnotin
    have hstat := memberStatus_not_found (env.lanMembers 0) m.name hnotin
    simp [joinConsulServer, hself, joinLoopAux, hpeers, hmem, hstat]

/-- Witness for C9: a candidate missing from the local snapshot causes
the loop to stop after a single peer-list read. -/
theorem member_status_first_match_witness :
    joinConsulServer ("node1")
      ⟨fun _ => some [], fun _ => [], fun _ => true, fun _ => false⟩
      ⟨"node2", "1.2.3.4", "consul:dc1:8300", MemberStatus.statusAlive⟩
      8300 (2 + 1) = ([RaftAction.getPeers], true) :=
  member_status_first_match.2 ("node1")
    ⟨fun _ => some [], fun _ => [], fun _ => true, fun _ => false⟩
    ⟨"node2", "1.2.3.4", "consul:dc1:8300", MemberStatus.statusAlive⟩
    8300 2 [] (by decide) rfl (by decide) (by simp)

/-- Claim C5: processing the same wide-area join twice is idempotent.
Once the first processing has put the candidate address into its site's
list, the second processing finds it and leaves the directory unchanged,
and the address occurs exactly once in that site's list. -/
theorem remote_join_idempotent (d : Directory) (m : Member) (dc : String)
    (port : Int) (k : Nat)
    (hclass : isConsulServer m.role = some ((true, dc, port), k))
    (hcount : (dirLookup d dc).count (⟨m.addr, port⟩ : Addr) ≤ 1) :
    ∀ d1, remoteJoinMember d m = some d1 →
      remoteJoinMember d1 m = some d1 ∧
      (dirLookup d1 dc).count (⟨m.addr, port⟩ : Addr) = 1 := by
  intro d1 h1
  unfold remoteJoinMember at h1 ⊢
  rw [hclass] at h1 ⊢
  by_cases hmem : addrIn ⟨m.addr, port⟩ (dirLookup d dc) = true
  · simp only [hmem, if_true, Option.some.injEq] at h1
    subst h1
    constructor
    · simp [hmem]
    · have hin : (⟨m.addr, port⟩ : Addr) ∈ dirLookup d dc :=
        (addrIn_iff _ _).1 hmem
      have hpos : 0 < (dirLookup d dc).count (⟨m.addr, port⟩ : Addr) :=
        List.count_pos_iff.2 hin
      omega
  · simp only [hmem, Bool.false_eq_true, if_false, Option.some.injEq] at h1
    subst h1
    have hlook : dirLookup
        (dirInsert d dc (dirLookup d dc ++ [⟨m.addr, port⟩])) dc =
        dirLookup d dc ++ [⟨m.addr, port⟩] := dirLookup_dirInsert _ _ _
    have hnotin : (⟨m.addr, port⟩ : Addr) ∉ dirLookup d dc := by
      intro hcontra
      rw [(addrIn_iff _ _).2 hcontra] at hmem
      exact hmem rfl
    constructor
    · have hin2 : addrIn (⟨m.addr, port⟩ : Addr)
          (dirLookup (dirInsert d dc (dirLookup d dc ++ [⟨m.addr, port⟩]))
            dc) = true := by
        rw [hlook]
        exact (addrIn_iff _ _).2 (by simp)
      simp [hin2]
    · rw [hlook, List.count_append]
      simp [List.count_eq_zero.2 hnotin]

/-- Witness for C5: joining the same member into an already-updated
directory changes nothing and leaves one occurrence. -/
theorem remote_join_idempotent_witness :
    remoteJoinMember [("dc1", [⟨"1.2.3.4", 8300⟩])]
      ⟨"node2", "1.2.3.4", "consul:dc1:8300", MemberStatus.statusAlive⟩ =
      some [("dc1", [⟨"1.2.3.4", 8300⟩])] ∧
    (dirLookup [("dc1", [⟨"1.2.3.4", 8300⟩])] ("dc1")).count
      (⟨"1.2.3.4", 8300⟩ : Addr) = 1 :=
  remote_join_idempotent []
    ⟨"node2", "1.2.3.4", "consul:dc1:8300", MemberStatus.statusAlive⟩
    ("dc1") 8300 0 (by decide) (by decide)
    [("dc1", [⟨"1.2.3.4", 8300⟩])] (by decide)

end ConsulSerf
